import Mathlib

/-!
Verification of the dual-venue swap execution engine (pump_fun_python).

The Python source is shallowly embedded: Python floats become rationals
(ℚ); the special float values `inf` and `nan`, which the source produces
through `get_price` on an empty pool, are tracked explicitly through
`Option`/sum types; Python `int(x)` truncation toward zero becomes
`pyInt`; fallible paths become `Except`/`Option`; byte strings become
`List ℕ` with every element < 256.
-/

namespace PumpFunRepo

/-- Python `int(x)` on a float: truncation toward zero. -/
def pyInt (q : ℚ) : ℤ := if 0 ≤ q then ⌊q⌋ else ⌈q⌉

/-- Modelled from the spec: the lamports-per-SOL conversion constant
supplied by configuration (`config.get` reads `config.yaml`, which is not
part of the source tree); the spec names it LAMPORTS_PER_SOL and the
glossary fixes it as the standard lamport scale 10^9. -/
def LAMPORTS_PER_SOL : ℚ := 1000000000

/-- Embeds `get_price` (src/utils/pool_utils.py:37-40).
`none` stands for the float value `inf` returned when
`base_balance_tokens <= 0`. -/
def get_price (base_balance_tokens quote_balance_sol : ℚ) : Option ℚ :=
  if base_balance_tokens ≤ 0 then none
  else some (quote_balance_sol / base_balance_tokens)

/-- Embeds `convert_sol_to_base_tokens` (src/utils/pool_utils.py:52-65).
When the price is `inf` (empty base side), Python computes
`sol_amount / inf = 0.0`, so the base amount out is 0; when the price is
`0.0` (zero quote side with positive base side), `sol_amount / 0.0`
raises `ZeroDivisionError`, embedded as `.error`.  Note the slippage
factor in the source is `1 + slippage_pct`, with no division by 100. -/
def convert_sol_to_base_tokens (sol_amount base_balance_tokens quote_balance_sol : ℚ)
    (decimals_base : ℕ) (slippage_pct : ℚ) : Except String (ℤ × ℤ) :=
  let max_sol := sol_amount * (1 + slippage_pct)
  let max_quote_in_lamports := pyInt (max_sol * LAMPORTS_PER_SOL)
  match get_price base_balance_tokens quote_balance_sol with
  | none => .ok (pyInt 0, max_quote_in_lamports)
  | some price =>
      if price = 0 then .error "ZeroDivisionError"
      else .ok (pyInt (sol_amount / price * (10 : ℚ) ^ decimals_base), max_quote_in_lamports)

/-- The quote-side bound exactly as the specification words it:
`maxQuoteIn = floor(solIn × (1 + slippagePct/100) × LAMPORTS_PER_SOL)`,
with slippagePct the percentage value (10 means 10%). -/
def spec_max_quote_in (sol_amount slippage_pct : ℚ) : ℤ :=
  ⌊sol_amount * (1 + slippage_pct / 100) * LAMPORTS_PER_SOL⌋

/-- C1: the AMM buy-sizing slippage bound.  `PumpSwap.buy` forwards its
`slippage_pct` argument (default 10, documented as a percentage) to
`convert_sol_to_base_tokens` unchanged, but that function multiplies by
`(1 + slippage_pct)` rather than `(1 + slippage_pct/100)`.  At
solIn = 1 SOL, baseReserve = 2, quoteReserve = 1, decimals = 6,
slippagePct = 10 the code produces maxQuoteIn = 11000000000 lamports
(11 SOL) whereas the specified formula gives 1100000000 (1.1 SOL); the
baseOut component does follow the specified formula. -/
theorem convert_sol_to_base_tokens_slippage_bug :
    convert_sol_to_base_tokens 1 2 1 6 10 = .ok (2000000, 11000000000)
      ∧ spec_max_quote_in 1 10 = 1100000000
      ∧ (11000000000 : ℤ) ≠ 1100000000 := by
  refine ⟨?_, ?_, by decide⟩
  · simp only [convert_sol_to_base_tokens, get_price, LAMPORTS_PER_SOL, pyInt]
    norm_num
  · simp only [spec_max_quote_in, LAMPORTS_PER_SOL]
    norm_num

/-! ## Bonding-curve venue (src/model/pump_fun/bonding_curve/pump_fun.py) -/

/-- TokenState as returned by the coin-record lookup; only the fields the
routing and sizing logic reads are kept.  The `complete` flag is the
venue discriminator. -/
structure CoinData where
  complete : Bool
  virtual_sol_reserves : ℕ
  virtual_token_reserves : ℕ
  deriving DecidableEq, Repr

/-- Outcome of `PumpFun.buy_bonding_curve` up to the point where the swap
instruction amounts are fixed; later phases (account creation, submit,
confirm) depend only on network effects, not on the sizing. -/
inductive BCBuyResult where
  | noCoinData
  | bonded
  | proceeds (amount max_sol_cost : ℤ)
  deriving DecidableEq, Repr

/-- Embeds the decision and sizing prefix of `PumpFun.buy_bonding_curve`
(src/model/pump_fun/bonding_curve/pump_fun.py:130-214): missing coin data
and a completed token return False before sizing; otherwise the requested
token amount is the constant `int(1000 * token_dec)` (the source comment
reads "Try a very small fixed token amount to test") and
`max_sol_cost = int(sol_in * (1 + slippage/100) * sol_dec)` with
`sol_dec = 1e9`, `token_dec = 1e6`. -/
def buy_bonding_curve (coin_data : Option CoinData) (sol_in slippage : ℚ) : BCBuyResult :=
  match coin_data with
  | none => .noCoinData
  | some c =>
      if c.complete then .bonded
      else
        let amount := pyInt (1000 * 1000000)
        let slippage_adjustment := 1 + slippage / 100
        let max_sol_cost := pyInt (sol_in * slippage_adjustment * 1000000000)
        .proceeds amount max_sol_cost

/-- C2 (code bug): for every non-completed token, `buy_bonding_curve`
requests the constant token amount 1000000000 (1000 tokens at the 1e6
scale) regardless of `sol_in`, the slippage, or the token's virtual
reserves — the claim (and the spec) say the amount is derived from
`solIn` and the constant-product virtual reserves.  In particular the
spec's end-to-end scenario input solIn = 0.01 and a solIn of 5 SOL
request the identical amount for tokens with different reserves. -/
theorem buy_bonding_curve_constant_amount :
    (∀ sol_in slippage : ℚ, ∀ vs vt : ℕ,
        buy_bonding_curve (some ⟨false, vs, vt⟩) sol_in slippage =
          .proceeds 1000000000 (pyInt (sol_in * (1 + slippage / 100) * 1000000000)))
      ∧ buy_bonding_curve (some ⟨false, 30000000000, 1073000000000000⟩) (1/100) 15 =
          .proceeds 1000000000 11500000
      ∧ buy_bonding_curve (some ⟨false, 70000000000, 400000000000000⟩) 5 15 =
          .proceeds 1000000000 5750000000 := by
  refine ⟨fun sol_in slippage vs vt => ?_, ?_, ?_⟩
  · simp only [buy_bonding_curve]
    norm_num [pyInt]
  · simp only [buy_bonding_curve]
    norm_num [pyInt]
  · simp only [buy_bonding_curve]
    norm_num [pyInt]

/-- Modelled from the spec: `tokens_for_sol` lives in utils/coin_data.py,
which is absent from the source tree; the spec (§4.1/§3.8 glossary) says
bonding-curve sizing converts a token amount to SOL through the
constant-product virtual reserves, so the SOL received for selling
`tokens` against reserves (vsol, vtok) is `tokens * vsol / (vtok + tokens)`. -/
def tokens_for_sol (tokens virtual_sol virtual_token : ℚ) : ℚ :=
  tokens * virtual_sol / (virtual_token + tokens)

/-- Outcome of `PumpFun.sell_bonding_curve` up to the sizing point. -/
inductive BCSellResult where
  | badPercentage
  | noCoinData
  | bonded
  | zeroBalance
  | proceeds (amount min_sol_output : ℤ)
  deriving DecidableEq, Repr

/-- Embeds the decision and sizing prefix of `PumpFun.sell_bonding_curve`
(src/model/pump_fun/bonding_curve/pump_fun.py:216-311), paired with the
ordered list of network operations issued before the result is
determined.  The percentage-range check runs before `get_coin_data`, the
first network call; `get_token_balance` is the second. -/
def sell_bonding_curve (percentage : ℤ) (coin_data : Option CoinData)
    (token_balance : Option ℚ) (slippage : ℚ) : BCSellResult × List String :=
  if ¬ (1 ≤ percentage ∧ percentage ≤ 100) then (.badPercentage, [])
  else
    match coin_data with
    | none => (.noCoinData, ["get_coin_data"])
    | some c =>
        if c.complete then (.bonded, ["get_coin_data"])
        else
          match token_balance with
          | none => (.zeroBalance, ["get_coin_data", "get_token_balance"])
          | some tb =>
              if tb = 0 then (.zeroBalance, ["get_coin_data", "get_token_balance"])
              else
                let to_sell := tb * ((percentage : ℚ) / 100)
                let amount := pyInt (to_sell * 1000000)
                let vsol := (c.virtual_sol_reserves : ℚ) / 1000000000
                let vtok := (c.virtual_token_reserves : ℚ) / 1000000
                let sol_out := tokens_for_sol to_sell vsol vtok
                let min_sol_output := pyInt (sol_out * (1 - slippage / 100) * 1000000000)
                (.proceeds amount min_sol_output, ["get_coin_data", "get_token_balance"])

/-! ## AMM venue: PumpSwap.sell (src/model/pump_fun/pump_swap/pump_swap.py) -/

/-- The live pool snapshot fields `PumpSwap.sell`/`buy` read. -/
structure PoolData where
  base_balance_tokens : ℚ
  quote_balance_sol : ℚ
  decimals_base : ℕ
  deriving DecidableEq, Repr

/-- Outcome of `PumpSwap.sell`.  `floatOverflow`/`floatNan` embed the
Python exceptions `int(±inf)` (OverflowError) and `int(nan)`
(ValueError) raised when the pool price is infinite; every constructor
other than `submitted` is reached before a transaction is built. -/
inductive PSSellResult where
  | noBalance
  | nothingToSell
  | floatOverflow
  | floatNan
  | minOutNonpositive
  | submitted (min_quote_amount_out base_amount_in : ℤ)
  deriving DecidableEq, Repr

/-- Embeds `PumpSwap.sell` (src/model/pump_fun/pump_swap/pump_swap.py:397-514)
up to the point where the transaction is built and submitted.  The
source performs no percentage-range validation; its first act is the
balance fetch.  `get_price` returning `none` models the float `inf`
(base reserve ≤ 0), in which case `raw_sol = to_sell * inf = inf` and
`int(min_sol_out * LAMPORTS_PER_SOL)` raises: for a zero slippage factor
`inf * 0 = nan` (ValueError), otherwise ±inf (OverflowError). -/
def pumpswap_sell (user_base_balance : Option ℚ) (sell_pct slippage_pct : ℚ)
    (pool : PoolData) : PSSellResult :=
  match user_base_balance with
  | none => .noBalance
  | some b =>
      if b ≤ 0 then .noBalance
      else
        let to_sell := b * (sell_pct / 100)
        if to_sell ≤ 0 then .nothingToSell
        else
          let base_amount_in := pyInt (to_sell * (10 : ℚ) ^ pool.decimals_base)
          match get_price pool.base_balance_tokens pool.quote_balance_sol with
          | none =>
              if 1 - slippage_pct / 100 = 0 then .floatNan else .floatOverflow
          | some price =>
              let raw_sol := to_sell * price
              let min_sol_out := raw_sol * (1 - slippage_pct / 100)
              let min_quote_amount_out := pyInt (min_sol_out * LAMPORTS_PER_SOL)
              if min_quote_amount_out ≤ 0 then .minOutNonpositive
              else .submitted min_quote_amount_out base_amount_in

/-- Recognizes the one outcome of `pumpswap_sell` in which a transaction
is built and submitted. -/
def isSubmitted : PSSellResult → Bool
  | .submitted _ _ => true
  | _ => false

theorem pyInt_nonpos {q : ℚ} (h : q ≤ 0) : pyInt q ≤ 0 := by
  unfold pyInt
  split
  · exact Int.floor_nonpos h
  · exact Int.ceil_le.mpr (by exact_mod_cast h)

theorem pyInt_pos_of_pos {q : ℚ} (h : ¬ pyInt q ≤ 0) : 0 < pyInt q := lt_of_not_le h

/-- C3 counterexample: a PumpSwap sell with percentage 150 (outside
[1,100]) is not rejected: with a balance of 10 tokens and a healthy pool
(100 base / 10 SOL, 6 decimals, 10% slippage) the call sizes the trade
at 150% of the holdings and proceeds all the way to building and
submitting a transaction. -/
theorem pumpswap_sell_accepts_percentage_150 :
    pumpswap_sell (some 10) 150 10 ⟨100, 10, 6⟩ =
        .submitted 1350000000 15000000
      ∧ isSubmitted (pumpswap_sell (some 10) 150 10 ⟨100, 10, 6⟩) = true := by
  have h : pumpswap_sell (some 10) 150 10 ⟨100, 10, 6⟩ =
      .submitted 1350000000 15000000 := by
    simp only [pumpswap_sell, get_price, pyInt, LAMPORTS_PER_SOL]
    norm_num
  exact ⟨h, by rw [h]; rfl⟩

/-- C3 amended: only the bonding-curve sell validates the percentage
range; an out-of-range percentage there returns False before any network
operation (the check precedes `get_coin_data`).  The AMM sell path has
no range validation: a non-positive percentage yields False only through
the sizing check that runs after the balance fetch, and an over-100
percentage proceeds (see the counterexample). -/
theorem sell_percentage_validation (percentage : ℤ) (coin_data : Option CoinData)
    (token_balance : Option ℚ) (slippage : ℚ)
    (h : percentage < 1 ∨ 100 < percentage) :
    sell_bonding_curve percentage coin_data token_balance slippage = (.badPercentage, [])
      ∧ ∀ b pct slip pool, 0 < b → pct ≤ 0 →
          pumpswap_sell (some b) pct slip pool = .nothingToSell := by
  constructor
  · have hrange : ¬ (1 ≤ percentage ∧ percentage ≤ 100) := by omega
    simp only [sell_bonding_curve, hrange, not_false_eq_true, if_true]
  · intro b pct slip pool hb hpct
    have hts : b * (pct / 100) ≤ 0 := by
      have : pct / 100 ≤ 0 := by linarith
      exact mul_nonpos_of_nonneg_of_nonpos hb.le this
    simp only [pumpswap_sell, not_le.mpr hb, if_false, if_pos hts]

/-- C3 witness instance at percentage 150. -/
theorem sell_percentage_validation_witness :
    ((150 : ℤ) < 1 ∨ (100 : ℤ) < 150)
      ∧ (sell_bonding_curve 150 (some ⟨false, 5, 7⟩) (some 10) 10 = (.badPercentage, [])
          ∧ ∀ b pct slip pool, 0 < b → pct ≤ 0 →
              pumpswap_sell (some b) pct slip pool = .nothingToSell) :=
  ⟨Or.inr (by norm_num),
    sell_percentage_validation 150 (some ⟨false, 5, 7⟩) (some 10) 10 (Or.inr (by norm_num))⟩

/-- C5 counterexample: with base reserve 0 (and quote reserve 5) a sell
of 50% of a 10-token balance at 10% slippage does not compute a bound at
all, let alone one ≤ 0: `get_price` returns the float `inf`,
`raw_sol = to_sell * inf = inf`, and `int(min_sol_out * LAMPORTS_PER_SOL)`
raises OverflowError, so the call dies with an exception instead of the
claimed bound-≤-0 failure. -/
theorem pumpswap_sell_zero_base_overflow :
    pumpswap_sell (some 10) 50 10 ⟨0, 5, 6⟩ = .floatOverflow
      ∧ PSSellResult.floatOverflow ≠ .minOutNonpositive := by
  refine ⟨?_, by decide⟩
  simp only [pumpswap_sell, get_price]
  norm_num

/-- C5 amended: for nonnegative pool balances, a sell never submits a
transaction when slippagePct ≥ 100, when the quote reserve is zero, or
when the base reserve is ≤ 0 — in the first two cases because the
computed bound is ≤ 0 and the code returns failure before building, in
the last because the float-infinite price makes `int()` raise before a
bound exists.  Moreover every submitted transaction carries a strictly
positive minimum-quote-out bound: a bound ≤ 0 always aborts first. -/
theorem pumpswap_sell_bound_guard (bal : Option ℚ) (pct slip : ℚ) (pool : PoolData)
    (hq : 0 ≤ pool.quote_balance_sol)
    (h : 100 ≤ slip ∨ pool.quote_balance_sol = 0 ∨ pool.base_balance_tokens ≤ 0) :
    isSubmitted (pumpswap_sell bal pct slip pool) = false
      ∧ ∀ bal2 pct2 slip2 pool2 q a,
          pumpswap_sell bal2 pct2 slip2 pool2 = .submitted q a → 0 < q := by
  constructor
  · cases bal with
    | none => rfl
    | some b =>
        simp only [pumpswap_sell]
        by_cases hb : b ≤ 0
        · simp [hb, isSubmitted]
        · simp only [hb, if_false]
          by_cases hts : b * (pct / 100) ≤ 0
          · simp [hts, isSubmitted]
          · simp only [hts, if_false]
            by_cases hbase : pool.base_balance_tokens ≤ 0
            · simp only [get_price, hbase, if_true]
              by_cases hz : 1 - slip / 100 = 0 <;> simp [hz, isSubmitted]
            · simp only [get_price, hbase, if_false]
              have hprice : (0 : ℚ) ≤ pool.quote_balance_sol / pool.base_balance_tokens :=
                div_nonneg hq (le_of_not_le hbase)
              have hfac : 1 - slip / 100 ≤ 0 ∨
                  pool.quote_balance_sol / pool.base_balance_tokens = 0 := by
                rcases h with h1 | h2 | h3
                · exact Or.inl (by linarith)
                · exact Or.inr (by rw [h2, zero_div])
                · exact absurd h3 hbase
              have hmul : b * (pct / 100) *
                  (pool.quote_balance_sol / pool.base_balance_tokens) *
                  (1 - slip / 100) * LAMPORTS_PER_SOL ≤ 0 := by
                rcases hfac with hf | hf
                · have h1 : 0 ≤ b * (pct / 100) *
                      (pool.quote_balance_sol / pool.base_balance_tokens) :=
                    mul_nonneg (le_of_not_le hts) hprice
                  have h2 : b * (pct / 100) *
                      (pool.quote_balance_sol / pool.base_balance_tokens) *
                      (1 - slip / 100) ≤ 0 := mul_nonpos_of_nonneg_of_nonpos h1 hf
                  exact mul_nonpos_of_nonpos_of_nonneg h2 (by norm_num [LAMPORTS_PER_SOL])
                · rw [hf]
                  ring_nf
                  simp
              have : pyInt (b * (pct / 100) *
                  (pool.quote_balance_sol / pool.base_balance_tokens) *
                  (1 - slip / 100) * LAMPORTS_PER_SOL) ≤ 0 := pyInt_nonpos hmul
              simp only [this, if_true, isSubmitted]
  · intro bal2 pct2 slip2 pool2 q a heq
    cases bal2 with
    | none => simp [pumpswap_sell] at heq
    | some b =>
        simp only [pumpswap_sell] at heq
        by_cases hb : b ≤ 0
        · simp [hb] at heq
        · simp only [hb, if_false] at heq
          by_cases hts : b * (pct2 / 100) ≤ 0
          · simp [hts] at heq
          · simp only [hts, if_false] at heq
            cases hgp : get_price pool2.base_balance_tokens pool2.quote_balance_sol with
            | none =>
                rw [hgp] at heq
                by_cases hz : 1 - slip2 / 100 = 0 <;> simp [hz] at heq
            | some price =>
                rw [hgp] at heq
                by_cases hle : pyInt (b * (pct2 / 100) * price *
                    (1 - slip2 / 100) * LAMPORTS_PER_SOL) ≤ 0
                · simp [hle] at heq
                · simp only [hle, if_false, PSSellResult.submitted.injEq] at heq
                  exact heq.1 ▸ lt_of_not_le hle

/-- C5 witness instance: balance 10, percentage 50, slippage 100, pool
reserves (2 base, 3 quote). -/
theorem pumpswap_sell_bound_guard_witness :
    ((0 : ℚ) ≤ (PoolData.mk 2 3 6).quote_balance_sol)
      ∧ ((100 : ℚ) ≤ 100 ∨ (PoolData.mk 2 3 6).quote_balance_sol = 0
          ∨ (PoolData.mk 2 3 6).base_balance_tokens ≤ 0)
      ∧ (isSubmitted (pumpswap_sell (some 10) 50 100 ⟨2, 3, 6⟩) = false
          ∧ ∀ bal2 pct2 slip2 pool2 q a,
              pumpswap_sell bal2 pct2 slip2 pool2 = .submitted q a → 0 < q) :=
  ⟨by norm_num, Or.inl (by norm_num),
    pumpswap_sell_bound_guard (some 10) 50 100 ⟨2, 3, 6⟩ (by norm_num) (Or.inl (by norm_num))⟩

/-! ## Pool discovery and ranking (src/utils/pool_utils.py:209-392) -/

def NEW_POOL_TYPE : String := "NEW"
def OLD_POOL_TYPE : String := "OLD"

/-- Embeds `calculate_pool_score` (src/utils/pool_utils.py:209-233):
`total_liquidity_sol` is doubled only when both the token and the SOL
liquidity are strictly positive, otherwise it is the bare SOL balance;
the 1.1 bonus applies to current-schema ("NEW") pools. -/
def calculate_pool_score (base_balance_tokens quote_balance_sol : ℚ)
    (pool_type : String) : ℚ :=
  let total_liquidity_sol :=
    if 0 < base_balance_tokens ∧ 0 < quote_balance_sol
    then quote_balance_sol * 2 else quote_balance_sol
  let pool_type_bonus : ℚ := if pool_type = NEW_POOL_TYPE then 11 / 10 else 1
  total_liquidity_sol * pool_type_bonus

/-- A candidate pool as it enters the scoring loop of
`find_best_pool_by_mint`: decode succeeded and both balance fetches
succeeded (candidates whose fetch raises are skipped by the loop's
try/except before scoring and never appear here). -/
structure PoolCandidate where
  base_balance_tokens : ℚ
  quote_balance_sol : ℚ
  pool_type : String
  pool_id : ℕ
  deriving DecidableEq, Repr

/-- A scored pool entry as appended to `scored_pools`. -/
structure ScoredPool where
  score : ℚ
  sol_liquidity : ℚ
  pool_type : String
  pool_id : ℕ
  deriving DecidableEq, Repr

def score_candidates (l : List PoolCandidate) : List ScoredPool :=
  l.map fun c =>
    ⟨calculate_pool_score c.base_balance_tokens c.quote_balance_sol c.pool_type,
      c.quote_balance_sol, c.pool_type, c.pool_id⟩

/-- Stable descending insertion: `x` is placed before the first element
whose score is ≤ its own.  Folding this from the right reproduces
Python's `list.sort(key=score, reverse=True)`, which is stable: equal
scores keep their scan order. -/
def insert_desc (x : ScoredPool) : List ScoredPool → List ScoredPool
  | [] => [x]
  | y :: ys => if y.score ≤ x.score then x :: y :: ys else y :: insert_desc x ys

def sort_desc (l : List ScoredPool) : List ScoredPool := l.foldr insert_desc []

/-- Embeds the selection tail of `find_best_pool_by_mint`
(src/utils/pool_utils.py:317-392): score every surviving candidate, sort
descending by score (stable), return the head; not-found exactly when
the scored list is empty. -/
def find_best_pool_by_mint (candidates : List PoolCandidate) :
    Bool × Option ScoredPool :=
  match (sort_desc (score_candidates candidates)).head? with
  | none => (false, none)
  | some best => (true, some best)

/-- The specification's selection rule, written from its words: the
first-encountered candidate of maximal score (ties broken by scan
order). -/
def spec_first_max : List ScoredPool → Option ScoredPool
  | [] => none
  | x :: xs =>
      match spec_first_max xs with
      | none => some x
      | some m => if x.score < m.score then some m else some x

theorem insert_desc_head (x : ScoredPool) (l : List ScoredPool) :
    (insert_desc x l).head? =
      some (match l.head? with
            | none => x
            | some y => if y.score ≤ x.score then x else y) := by
  cases l with
  | nil => rfl
  | cons y ys =>
      simp only [insert_desc, List.head?_cons]
      by_cases h : y.score ≤ x.score <;> simp [h]

theorem sort_desc_head (l : List ScoredPool) :
    (sort_desc l).head? = spec_first_max l := by
  induction l with
  | nil => rfl
  | cons x xs ih =>
      show (insert_desc x (sort_desc xs)).head? = spec_first_max (x :: xs)
      rw [insert_desc_head, ih]
      cases hm : spec_first_max xs with
      | none => simp [spec_first_max, hm]
      | some m =>
          simp only [spec_first_max, hm]
          by_cases h : m.score ≤ x.score
          · simp [h, not_lt.mpr h]
          · simp [h, lt_of_not_le h]

theorem spec_first_max_eq_none {l : List ScoredPool} :
    spec_first_max l = none ↔ l = [] := by
  cases l with
  | nil => simp [spec_first_max]
  | cons x xs =>
      simp only [spec_first_max]
      cases hm : spec_first_max xs with
      | none => simp
      | some m => by_cases h : x.score < m.score <;> simp [h]

theorem spec_first_max_mem : ∀ {l : List ScoredPool} {b : ScoredPool},
    spec_first_max l = some b → b ∈ l ∧ ∀ c ∈ l, c.score ≤ b.score := by
  intro l
  induction l with
  | nil => intro b h; simp [spec_first_max] at h
  | cons x xs ih =>
      intro b h
      cases hm : spec_first_max xs with
      | none =>
          simp only [spec_first_max, hm] at h
          obtain rfl := Option.some.inj h
          have hxs : xs = [] := spec_first_max_eq_none.mp hm
          subst hxs
          exact ⟨List.mem_cons_self _ _, by simp⟩
      | some m =>
          simp only [spec_first_max, hm] at h
          obtain ⟨hmem, hmax⟩ := ih hm
          by_cases hlt : x.score < m.score
          · rw [if_pos hlt] at h
            obtain rfl := Option.some.inj h
            refine ⟨List.mem_cons_of_mem _ hmem, ?_⟩
            intro c hc
            rcases List.mem_cons.mp hc with rfl | hc
            · exact hlt.le
            · exact hmax c hc
          · rw [if_neg hlt] at h
            obtain rfl := Option.some.inj h
            refine ⟨List.mem_cons_self _ _, ?_⟩
            intro c hc
            rcases List.mem_cons.mp hc with rfl | hc
            · exact le_rfl
            · exact (hmax c hc).trans (not_lt.mp hlt)

theorem find_best_pool_eq (candidates : List PoolCandidate) :
    find_best_pool_by_mint candidates =
      match spec_first_max (score_candidates candidates) with
      | none => (false, none)
      | some best => (true, some best) := by
  unfold find_best_pool_by_mint
  rw [sort_desc_head]

/-- C4 counterexample: a current-schema candidate with SOL balance 5 and
token balance 0 scores 5 × 1.1 = 5.5, not the claimed
2 × 5 × 1.1 = 11 (the doubling only happens when both balances are
positive); and a single candidate scoring 0 (both balances zero) is
still reported found, although the claim says all scores ≤ 0 report
not-found. -/
theorem calculate_pool_score_counterexample :
    calculate_pool_score 0 5 NEW_POOL_TYPE = 11 / 2
      ∧ (11 / 2 : ℚ) ≠ 2 * 5 * (11 / 10)
      ∧ calculate_pool_score 0 0 NEW_POOL_TYPE ≤ 0
      ∧ (find_best_pool_by_mint [⟨0, 0, NEW_POOL_TYPE, 7⟩]).1 = true := by
  refine ⟨?_, by norm_num, ?_, ?_⟩
  · simp only [calculate_pool_score, NEW_POOL_TYPE]
    norm_num
  · simp only [calculate_pool_score, NEW_POOL_TYPE]
    norm_num
  · rfl

/-- C4 amended: each candidate's score is SOL-side balance × (2 if both
balances are positive else 1) × (1.1 if current schema else 1.0);
`find_best_pool_by_mint` reports not-found exactly when zero candidates
survive decoding and data fetch (the scored list is empty) — a surviving
candidate is returned even when every score is ≤ 0 — and otherwise
returns the first-encountered candidate of maximal score (Python's
stable descending sort breaks ties by scan order). -/
theorem find_best_pool_selection (candidates : List PoolCandidate) :
    ((find_best_pool_by_mint candidates).1 = false ↔ candidates = [])
      ∧ (find_best_pool_by_mint candidates).2 =
          spec_first_max (score_candidates candidates)
      ∧ (∀ b, (find_best_pool_by_mint candidates).2 = some b →
          b ∈ score_candidates candidates
            ∧ ∀ c ∈ score_candidates candidates, c.score ≤ b.score)
      ∧ ∀ base quote t, calculate_pool_score base quote t =
          quote * (if 0 < base ∧ 0 < quote then 2 else 1)
            * (if t = NEW_POOL_TYPE then 11 / 10 else 1) := by
  have hempty : score_candidates candidates = [] ↔ candidates = [] := by
    simp [score_candidates]
  rw [find_best_pool_eq]
  cases hm : spec_first_max (score_candidates candidates) with
  | none =>
      refine ⟨?_, rfl, ?_, ?_⟩
      · simp only [true_iff]
        exact hempty.mp (spec_first_max_eq_none.mp hm)
      · intro b hb
        simp at hb
      · intro base quote t
        simp only [calculate_pool_score]
        by_cases hpos : 0 < base ∧ 0 < quote <;> simp [hpos, mul_comm]
  | some m =>
      refine ⟨?_, rfl, ?_, ?_⟩
      · refine ⟨fun hff => absurd hff (by simp), fun hc => ?_⟩
        subst hc
        exact absurd hm (by simp [score_candidates, spec_first_max])
      · intro b hb
        obtain rfl := Option.some.inj hb
        exact spec_first_max_mem hm
      · intro base quote t
        simp only [calculate_pool_score]
        by_cases hpos : 0 < base ∧ 0 < quote <;> simp [hpos, mul_comm]

/-- C4 witness instance: between a legacy pool with 5 SOL and a current
pool with 7 SOL, the current pool (score 7 × 2 × 1.1 = 15.4) is
selected, and it is a maximum of the scored list. -/
theorem find_best_pool_selection_witness :
    (find_best_pool_by_mint
        [⟨1, 5, OLD_POOL_TYPE, 1⟩, ⟨2, 7, NEW_POOL_TYPE, 2⟩]).2 =
        some ⟨77 / 5, 7, NEW_POOL_TYPE, 2⟩
      ∧ (⟨77 / 5, 7, NEW_POOL_TYPE, 2⟩ : ScoredPool) ∈
          score_candidates [⟨1, 5, OLD_POOL_TYPE, 1⟩, ⟨2, 7, NEW_POOL_TYPE, 2⟩]
      ∧ ∀ c ∈ score_candidates [⟨1, 5, OLD_POOL_TYPE, 1⟩, ⟨2, 7, NEW_POOL_TYPE, 2⟩],
          c.score ≤ (77 / 5 : ℚ) := by
  have h := find_best_pool_selection [⟨1, 5, OLD_POOL_TYPE, 1⟩, ⟨2, 7, NEW_POOL_TYPE, 2⟩]
  have he : spec_first_max (score_candidates
      [⟨1, 5, OLD_POOL_TYPE, 1⟩, ⟨2, 7, NEW_POOL_TYPE, 2⟩]) =
      some ⟨77 / 5, 7, NEW_POOL_TYPE, 2⟩ := by
    simp only [score_candidates, List.map, spec_first_max, calculate_pool_score,
      NEW_POOL_TYPE, OLD_POOL_TYPE]
    norm_num
    have hne : ("OLD" : String) ≠ "NEW" := by simp
    rw [if_neg hne]
    norm_num
  have h2 := h.2.1.trans he
  obtain ⟨hmem, hmax⟩ := h.2.2.1 _ h2
  exact ⟨h2, hmem, fun c hc => hmax c hc⟩

/-! ## Venue routing (src/model/pump_fun/unified_pump_fun.py) -/

inductive Strategy where
  | bondingCurve
  | pumpSwap
  deriving DecidableEq, Repr

/-- Embeds `UnifiedPumpFun._detect_trading_strategy`
(src/model/pump_fun/unified_pump_fun.py:138-171).  The cache maps a mint
to `(is_valid, is_on_bonding_curve)`; on a miss the coin record is
fetched and `is_on_bonding_curve = not coin_data.complete`.  A missing
record yields no strategy. -/
def detect_trading_strategy (cache : Option (Bool × Bool))
    (fetched : Option CoinData) : Option Strategy :=
  match cache with
  | some (is_valid, is_on_bonding_curve) =>
      if is_valid = false then none
      else if is_on_bonding_curve then some .bondingCurve else some .pumpSwap
  | none =>
      match fetched with
      | none => none
      | some cd =>
          let is_on_bonding_curve := !cd.complete
          if is_on_bonding_curve then some .bondingCurve else some .pumpSwap

/-- Outcome of `PumpSwapStrategy.buy`/`.sell`
(src/model/pump_fun/unified_pump_fun.py:76-110): a failed pool lookup
returns False directly — the bonding-curve strategy is never consulted —
otherwise the call is delegated to the `PumpSwap` client. -/
inductive StratResult where
  | poolNotFound
  | delegatedToAmm (confirmed : Bool)
  deriving DecidableEq, Repr

def pumpswap_strategy_buy (pool_lookup : Option (PoolData × String))
    (amm_confirmed : Bool) : StratResult :=
  match pool_lookup with
  | none => .poolNotFound
  | some _ => .delegatedToAmm amm_confirmed

def pumpswap_strategy_sell (pool_lookup : Option (PoolData × String))
    (amm_confirmed : Bool) : StratResult :=
  match pool_lookup with
  | none => .poolNotFound
  | some _ => .delegatedToAmm amm_confirmed

def strat_result_to_bool : StratResult → Bool
  | .poolNotFound => false
  | .delegatedToAmm c => c

/-- The boolean `buy_bonding_curve` ultimately returns: only a sized
trade that reaches submission can return the confirmation result;
every earlier exit returns False. -/
def bc_buy_result_to_bool (r : BCBuyResult) (confirmed : Bool) : Bool :=
  match r with
  | .proceeds _ _ => confirmed
  | _ => false

def bc_sell_result_to_bool (r : BCSellResult) (confirmed : Bool) : Bool :=
  match r with
  | .proceeds _ _ => confirmed
  | _ => false

/-- C6: venue routing.  A token with completion=false routes to the
bonding-curve strategy and completion=true to the AMM strategy; a failed
pool lookup for a completed token makes the AMM strategy return False
without consulting any other venue; and the bonding-curve buy/sell
themselves refuse a completed token (sell refuses it whenever the
percentage passes the earlier range check). -/
theorem venue_routing (cd : CoinData) (sol_in slippage : ℚ) (pct : ℤ)
    (tb : Option ℚ) (amm : Bool) (vs vt : ℕ) :
    detect_trading_strategy none (some cd) =
        some (if cd.complete then .pumpSwap else .bondingCurve)
      ∧ detect_trading_strategy none none = none
      ∧ pumpswap_strategy_buy none amm = .poolNotFound
      ∧ pumpswap_strategy_sell none amm = .poolNotFound
      ∧ strat_result_to_bool .poolNotFound = false
      ∧ buy_bonding_curve (some ⟨true, vs, vt⟩) sol_in slippage = .bonded
      ∧ bc_buy_result_to_bool .bonded amm = false
      ∧ (sell_bonding_curve pct (some ⟨true, vs, vt⟩) tb slippage).1 =
          (if 1 ≤ pct ∧ pct ≤ 100 then .bonded else .badPercentage)
      ∧ bc_sell_result_to_bool .bonded amm = false
      ∧ bc_sell_result_to_bool .badPercentage amm = false := by
  refine ⟨?_, rfl, rfl, rfl, rfl, rfl, rfl, ?_, rfl, rfl⟩
  · cases hc : cd.complete <;> simp [detect_trading_strategy, hc]
  · by_cases hp : 1 ≤ pct ∧ pct ≤ 100 <;> simp [sell_bonding_curve, hp]

/-! ## Transaction confirmation (src/utils/common_utils.py:37-66) -/

/-- One poll of `get_transaction`: the transaction is not yet visible
(`value is None`), visible with a null error, visible with a non-null
error, or the RPC call raised. -/
inductive PollResult where
  | notFound
  | visibleOk
  | visibleErr
  | rpcException
  deriving DecidableEq, Repr

/-- Terminal outcome of `confirm_txn`; the source returns a boolean but
reaches it through three distinct exits, which the claim requires to be
distinguishable. -/
inductive ConfirmOutcome where
  | confirmed
  | onChainError
  | timeout
  deriving DecidableEq, Repr

/-- Loop body of `confirm_txn`: `fuel` is `max_retries - retries`;
`idx` numbers the polls.  A not-found result (and an RPC exception)
consumes one retry and continues; a visible status returns immediately
according to its error field; exhausted retries exit through the
timeout path. -/
def confirm_go (polls : ℕ → PollResult) : ℕ → ℕ → ConfirmOutcome
  | 0, _ => .timeout
  | fuel + 1, idx =>
      match polls idx with
      | .notFound => confirm_go polls fuel (idx + 1)
      | .visibleOk => .confirmed
      | .visibleErr => .onChainError
      | .rpcException => confirm_go polls fuel (idx + 1)

/-- Embeds `confirm_txn` (src/utils/common_utils.py:37-66) over an
abstract poll stream; the default retry budget is 20. -/
def confirm_txn (polls : ℕ → PollResult) (max_retries : ℕ := 20) : ConfirmOutcome :=
  confirm_go polls max_retries 0

def confirm_outcome_to_bool : ConfirmOutcome → Bool
  | .confirmed => true
  | _ => false

theorem confirm_go_total (polls : ℕ → PollResult) :
    ∀ fuel idx, confirm_go polls fuel idx = .confirmed
      ∨ confirm_go polls fuel idx = .onChainError
      ∨ confirm_go polls fuel idx = .timeout := by
  intro fuel
  induction fuel with
  | zero => intro idx; exact Or.inr (Or.inr rfl)
  | succ f ih =>
      intro idx
      simp only [confirm_go]
      cases polls idx with
      | notFound => exact ih (idx + 1)
      | visibleOk => exact Or.inl rfl
      | visibleErr => exact Or.inr (Or.inl rfl)
      | rpcException => exact ih (idx + 1)

/-- C8: the confirmation state machine.  A not-found poll consumes one
retry and polling continues; [not-found, not-found, error=null] confirms
on the third poll (any retry budget ≥ 3); a visible non-null error fails
immediately; an all-not-found stream exhausts the budget through the
timeout exit, which is distinct from the on-chain-error exit (both map
to boolean False, confirmation to True); and the result is always one of
the three outcomes, hence always a boolean. -/
theorem confirm_txn_state_machine (polls : ℕ → PollResult) (max_retries : ℕ)
    (h0 : polls 0 = .notFound) (h1 : polls 1 = .notFound) (h2 : polls 2 = .visibleOk)
    (hm : 3 ≤ max_retries) :
    confirm_txn polls max_retries = .confirmed
      ∧ (∀ q : ℕ → PollResult, ∀ fuel idx, q idx = .notFound →
          confirm_go q (fuel + 1) idx = confirm_go q fuel (idx + 1))
      ∧ (∀ q : ℕ → PollResult, ∀ fuel idx, q idx = .visibleErr →
          confirm_go q (fuel + 1) idx = .onChainError)
      ∧ (∀ n, confirm_txn (fun _ => .notFound) n = .timeout)
      ∧ ConfirmOutcome.timeout ≠ .onChainError
      ∧ confirm_outcome_to_bool .timeout = false
      ∧ confirm_outcome_to_bool .onChainError = false
      ∧ confirm_outcome_to_bool .confirmed = true
      ∧ ∀ q m, confirm_txn q m = .confirmed ∨ confirm_txn q m = .onChainError
          ∨ confirm_txn q m = .timeout := by
  refine ⟨?_, ?_, ?_, ?_, by decide, rfl, rfl, rfl, ?_⟩
  · obtain ⟨k, rfl⟩ : ∃ k, max_retries = k + 3 :=
      ⟨max_retries - 3, by omega⟩
    show confirm_go polls (k + 3) 0 = .confirmed
    have e0 : confirm_go polls (k + 3) 0 = confirm_go polls (k + 2) 1 := by
      show confirm_go polls ((k + 2) + 1) 0 = _
      simp only [confirm_go, h0]
    have e1 : confirm_go polls (k + 2) 1 = confirm_go polls (k + 1) 2 := by
      show confirm_go polls ((k + 1) + 1) 1 = _
      simp only [confirm_go, h1]
    have e2 : confirm_go polls (k + 1) 2 = .confirmed := by
      show confirm_go polls (k + 1) 2 = _
      simp only [confirm_go, h2]
    rw [e0, e1, e2]
  · intro q fuel idx hq
    simp only [confirm_go, hq]
  · intro q fuel idx hq
    simp only [confirm_go, hq]
  · intro n
    induction n with
    | zero => rfl
    | succ f ih =>
        show confirm_go _ (f + 1) 0 = .timeout
        simp only [confirm_go]
        have : ∀ i, confirm_go (fun _ => PollResult.notFound) f i = .timeout := by
          clear ih
          induction f with
          | zero => intro i; rfl
          | succ g ihg =>
              intro i
              simp only [confirm_go]
              exact ihg (i + 1)
        exact this 1
  · intro q m
    exact confirm_go_total q m 0

/-- C8 witness instance at the spec's scenario: two not-found polls then
a visible null-error status, with the default budget of 20 retries. -/
theorem confirm_txn_state_machine_witness :
    ((fun n => if n ≤ 1 then PollResult.notFound else .visibleOk) 0 = PollResult.notFound)
      ∧ ((fun n => if n ≤ 1 then PollResult.notFound else .visibleOk) 1 = PollResult.notFound)
      ∧ ((fun n => if n ≤ 1 then PollResult.notFound else .visibleOk) 2 = PollResult.visibleOk)
      ∧ 3 ≤ 20
      ∧ confirm_txn (fun n => if n ≤ 1 then PollResult.notFound else .visibleOk) 20 =
          .confirmed :=
  ⟨rfl, rfl, rfl, by decide,
    (confirm_txn_state_machine (fun n => if n ≤ 1 then PollResult.notFound else .visibleOk)
      20 rfl rfl rfl (by decide)).1⟩

/-! ## Pool-type dispatch in PumpSwap.buy / PumpSwap.sell
(src/model/pump_fun/pump_swap/pump_swap.py:169-203 and 464-484) -/

/-- Builder selection in `PumpSwap.buy`: an `if pool_type == NEW` /
`elif pool_type == OLD` chain with no else branch, so any other value
leaves `buy_ix` unassigned and `instructions.append(buy_ix)` raises
UnboundLocalError. -/
inductive BuyBuildStep where
  | builtNew
  | builtOld
  | unboundLocalError
  deriving DecidableEq, Repr

def pumpswap_buy_select_builder (pool_type : String) : BuyBuildStep :=
  if pool_type = NEW_POOL_TYPE then .builtNew
  else if pool_type = OLD_POOL_TYPE then .builtOld
  else .unboundLocalError

/-- The phases of `PumpSwap.buy` after builder selection: the
`append(buy_ix)` raise happens before `get_latest_blockhash`,
`MessageV0.try_compile` and `send_transaction`. -/
inductive BuyPipeline where
  | abortedBeforeCompile
  | compiledAndSubmitted (b : BuyBuildStep)
  deriving DecidableEq, Repr

def pumpswap_buy_pipeline (pool_type : String) : BuyPipeline :=
  match pumpswap_buy_select_builder pool_type with
  | .unboundLocalError => .abortedBeforeCompile
  | b => .compiledAndSubmitted b

/-- Builder selection in `PumpSwap.sell`: `if pool_type == NEW` with a
bare else, so every non-NEW value — OLD or unknown — uses the
legacy-schema sell builder. -/
inductive SellBuilder where
  | newSchema
  | oldSchema
  deriving DecidableEq, Repr

def pumpswap_sell_select_builder (pool_type : String) : SellBuilder :=
  if pool_type = NEW_POOL_TYPE then .newSchema else .oldSchema

/-- C10: `PumpSwap.buy` builds a swap instruction only for pool_type
"NEW" or "OLD" and raises an unbound-variable error before compiling or
submitting anything for every other value, while `PumpSwap.sell` routes
every non-"NEW" pool_type — unknown values included — to the
legacy-schema sell builder. -/
theorem pool_type_dispatch (t : String)
    (hn : t ≠ NEW_POOL_TYPE) (ho : t ≠ OLD_POOL_TYPE) :
    pumpswap_buy_select_builder t = .unboundLocalError
      ∧ pumpswap_buy_pipeline t = .abortedBeforeCompile
      ∧ pumpswap_buy_select_builder NEW_POOL_TYPE = .builtNew
      ∧ pumpswap_buy_select_builder OLD_POOL_TYPE = .builtOld
      ∧ (∀ s, s ≠ NEW_POOL_TYPE → pumpswap_sell_select_builder s = .oldSchema)
      ∧ pumpswap_sell_select_builder NEW_POOL_TYPE = .newSchema := by
  have hbuy : pumpswap_buy_select_builder t = .unboundLocalError := by
    simp [pumpswap_buy_select_builder, hn, ho]
  refine ⟨hbuy, ?_, by simp [pumpswap_buy_select_builder],
    by simp [pumpswap_buy_select_builder, NEW_POOL_TYPE, OLD_POOL_TYPE],
    ?_, by simp [pumpswap_sell_select_builder]⟩
  · simp [pumpswap_buy_pipeline, hbuy]
  · intro s hs
    simp [pumpswap_sell_select_builder, hs]

/-- C10 witness instance at the unknown pool type "MYSTERY". -/
theorem pool_type_dispatch_witness :
    ("MYSTERY" ≠ NEW_POOL_TYPE) ∧ ("MYSTERY" ≠ OLD_POOL_TYPE)
      ∧ pumpswap_buy_select_builder "MYSTERY" = .unboundLocalError
      ∧ pumpswap_buy_pipeline "MYSTERY" = .abortedBeforeCompile :=
  have h := pool_type_dispatch "MYSTERY" (by simp [NEW_POOL_TYPE]) (by simp [OLD_POOL_TYPE])
  ⟨by simp [NEW_POOL_TYPE], by simp [OLD_POOL_TYPE], h.1, h.2.1⟩

/-! ## Instruction builder: payloads and account lists
(src/model/pump_fun/bonding_curve/pump_fun.py:69-115,
src/model/pump_fun/pump_swap/pump_swap.py:237-653) -/

/-- Little-endian byte encoding with a fixed width, as produced by
Python's `struct.pack`. -/
def leBytes : ℕ → ℕ → List ℕ
  | 0, _ => []
  | k + 1, n => n % 256 :: leBytes k (n / 256)

/-- Value of a little-endian byte list. -/
def leDecode (l : List ℕ) : ℕ := l.foldr (fun b acc => b + 256 * acc) 0

theorem leBytes_length (k n : ℕ) : (leBytes k n).length = k := by
  induction k generalizing n with
  | zero => rfl
  | succ j ih => simp [leBytes, ih]

theorem leDecode_leBytes (k n : ℕ) (h : n < 256 ^ k) :
    leDecode (leBytes k n) = n := by
  induction k generalizing n with
  | zero => simpa [leBytes, leDecode] using (Nat.lt_one_iff.mp (by simpa using h)).symm
  | succ j ih =>
      have hdiv : n / 256 < 256 ^ j := by
        rw [Nat.div_lt_iff_lt_mul (by norm_num)]
        calc n < 256 ^ (j + 1) := h
        _ = 256 ^ j * 256 := by ring
      simp only [leBytes, leDecode, List.foldr_cons]
      have := ih (n / 256) hdiv
      simp only [leDecode] at this
      rw [this, Nat.mod_add_div]

/-- Embeds `struct.pack("<Q", n)`: the 8-byte little-endian encoding,
failing for values outside the unsigned 64-bit range. -/
def pack_u64 (n : ℕ) : Option (List ℕ) :=
  if n < 2 ^ 64 then some (leBytes 8 n) else none

/-- Discriminator of the bonding-curve buy opcode, the byte string of
`operation_code="66063d1201daebea"`. -/
def BONDING_BUY_DISCRIM : List ℕ := [0x66, 0x06, 0x3d, 0x12, 0x01, 0xda, 0xeb, 0xea]

/-- Discriminator of the bonding-curve sell opcode, the byte string of
`operation_code="33e685a4017f83ad"`. -/
def BONDING_SELL_DISCRIM : List ℕ := [0x33, 0xe6, 0x85, 0xa4, 0x01, 0x7f, 0x83, 0xad]

/-- Payload assembly shared by all four swap builders: the 8-byte
discriminator, then two `struct.pack("<Q", ...)` fields (amount then
bound for buy, input amount then minimum output for sell). -/
def swap_instruction_data (discrim : List ℕ) (primary bound : ℕ) : Option (List ℕ) :=
  match pack_u64 primary, pack_u64 bound with
  | some a, some s => some (discrim ++ a ++ s)
  | _, _ => none

/-- An account entry of an instruction: role plus the
(is-signer, is-writable) pair. -/
structure AccountMeta (α : Type) where
  pubkey : α
  is_signer : Bool
  is_writable : Bool
  deriving DecidableEq, Repr

/-- Account roles of the bonding-curve program's buy/sell instructions. -/
inductive BCAccount where
  | globalState
  | feeRecipient
  | mint
  | bondingCurve
  | associatedBondingCurve
  | associatedUser
  | user
  | systemProgram
  | tokenProgram
  | creatorVault
  | eventAuthority
  | pumpFunProgram
  deriving DecidableEq, Repr

/-- Embeds the `keys` lists of `PumpFun.create_swap_instruction`
(src/model/pump_fun/bonding_curve/pump_fun.py:75-108): buy and sell
differ only in the order of SYSTEM_PROGRAM / CREATOR_VAULT /
TOKEN_PROGRAM. -/
def create_swap_instruction_keys (is_buy : Bool) : List (AccountMeta BCAccount) :=
  if is_buy then
    [⟨.globalState, false, false⟩,
     ⟨.feeRecipient, false, true⟩,
     ⟨.mint, false, false⟩,
     ⟨.bondingCurve, false, true⟩,
     ⟨.associatedBondingCurve, false, true⟩,
     ⟨.associatedUser, false, true⟩,
     ⟨.user, true, true⟩,
     ⟨.systemProgram, false, false⟩,
     ⟨.tokenProgram, false, false⟩,
     ⟨.creatorVault, false, true⟩,
     ⟨.eventAuthority, false, false⟩,
     ⟨.pumpFunProgram, false, false⟩]
  else
    [⟨.globalState, false, false⟩,
     ⟨.feeRecipient, false, true⟩,
     ⟨.mint, false, false⟩,
     ⟨.bondingCurve, false, true⟩,
     ⟨.associatedBondingCurve, false, true⟩,
     ⟨.associatedUser, false, true⟩,
     ⟨.user, true, true⟩,
     ⟨.systemProgram, false, false⟩,
     ⟨.creatorVault, false, true⟩,
     ⟨.tokenProgram, false, false⟩,
     ⟨.eventAuthority, false, false⟩,
     ⟨.pumpFunProgram, false, false⟩]

/-- Account roles of the PumpSwap AMM buy/sell instructions.  The token
program fills both the base and the quote token-program slots; the
legacy builders use the configured EVENT_AUTHORITY constant and the
current-schema builders derive the event authority PDA. -/
inductive AMMAccount where
  | pool
  | user
  | globalConfig
  | baseMint
  | quoteMint
  | userBaseTokenAccount
  | userQuoteTokenAccount
  | poolBaseTokenAccount
  | poolQuoteTokenAccount
  | protocolFeeRecipient
  | protocolFeeRecipientTokenAccount
  | tokenProgram
  | systemProgram
  | associatedTokenProgram
  | eventAuthorityConst
  | eventAuthorityDerived
  | pumpSwapProgram
  | coinCreatorVaultAta
  | coinCreatorVaultAuthority
  | globalVolumeAccumulator
  | userVolumeAccumulator
  deriving DecidableEq, Repr

/-- Embeds the `accs` list of `PumpSwap._build_old_pumpswap_buy`
(src/model/pump_fun/pump_swap/pump_swap.py:283-301). -/
def build_old_pumpswap_buy_accounts : List (AccountMeta AMMAccount) :=
  [⟨.pool, false, true⟩,
   ⟨.user, true, true⟩,
   ⟨.globalConfig, false, false⟩,
   ⟨.baseMint, false, false⟩,
   ⟨.quoteMint, false, false⟩,
   ⟨.userBaseTokenAccount, false, true⟩,
   ⟨.userQuoteTokenAccount, false, true⟩,
   ⟨.poolBaseTokenAccount, false, true⟩,
   ⟨.poolQuoteTokenAccount, false, true⟩,
   ⟨.protocolFeeRecipient, false, false⟩,
   ⟨.protocolFeeRecipientTokenAccount, false, true⟩,
   ⟨.tokenProgram, false, false⟩,
   ⟨.tokenProgram, false, false⟩,
   ⟨.systemProgram, false, false⟩,
   ⟨.associatedTokenProgram, false, false⟩,
   ⟨.eventAuthorityConst, false, false⟩,
   ⟨.pumpSwapProgram, false, false⟩]

/-- Embeds the `accs` list of `PumpSwap._build_new_pumpswap_buy`
(src/model/pump_fun/pump_swap/pump_swap.py:367-389). -/
def build_new_pumpswap_buy_accounts : List (AccountMeta AMMAccount) :=
  [⟨.pool, false, false⟩,
   ⟨.user, true, true⟩,
   ⟨.globalConfig, false, false⟩,
   ⟨.baseMint, false, false⟩,
   ⟨.quoteMint, false, false⟩,
   ⟨.userBaseTokenAccount, false, true⟩,
   ⟨.userQuoteTokenAccount, false, true⟩,
   ⟨.poolBaseTokenAccount, false, true⟩,
   ⟨.poolQuoteTokenAccount, false, true⟩,
   ⟨.protocolFeeRecipient, false, false⟩,
   ⟨.protocolFeeRecipientTokenAccount, false, true⟩,
   ⟨.tokenProgram, false, false⟩,
   ⟨.tokenProgram, false, false⟩,
   ⟨.systemProgram, false, false⟩,
   ⟨.associatedTokenProgram, false, false⟩,
   ⟨.eventAuthorityDerived, false, false⟩,
   ⟨.pumpSwapProgram, false, false⟩,
   ⟨.coinCreatorVaultAta, false, true⟩,
   ⟨.coinCreatorVaultAuthority, false, false⟩,
   ⟨.globalVolumeAccumulator, false, true⟩,
   ⟨.userVolumeAccumulator, false, true⟩]

/-- Embeds the `accs` list of `PumpSwap._build_new_pumpswap_sell`
(src/model/pump_fun/pump_swap/pump_swap.py:563-584). -/
def build_new_pumpswap_sell_accounts : List (AccountMeta AMMAccount) :=
  [⟨.pool, false, false⟩,
   ⟨.user, true, true⟩,
   ⟨.globalConfig, false, false⟩,
   ⟨.baseMint, false, false⟩,
   ⟨.quoteMint, false, false⟩,
   ⟨.userBaseTokenAccount, false, true⟩,
   ⟨.userQuoteTokenAccount, false, true⟩,
   ⟨.poolBaseTokenAccount, false, true⟩,
   ⟨.poolQuoteTokenAccount, false, true⟩,
   ⟨.protocolFeeRecipient, false, false⟩,
   ⟨.protocolFeeRecipientTokenAccount, false, true⟩,
   ⟨.tokenProgram, false, false⟩,
   ⟨.tokenProgram, false, false⟩,
   ⟨.systemProgram, false, false⟩,
   ⟨.associatedTokenProgram, false, false⟩,
   ⟨.eventAuthorityDerived, false, false⟩,
   ⟨.pumpSwapProgram, false, false⟩,
   ⟨.coinCreatorVaultAta, false, true⟩,
   ⟨.coinCreatorVaultAuthority, false, false⟩]

/-- Embeds the `accs` list of `PumpSwap._build_old_pumpswap_sell`
(src/model/pump_fun/pump_swap/pump_swap.py:629-647). -/
def build_old_pumpswap_sell_accounts : List (AccountMeta AMMAccount) :=
  [⟨.pool, false, true⟩,
   ⟨.user, true, true⟩,
   ⟨.globalConfig, false, false⟩,
   ⟨.baseMint, false, false⟩,
   ⟨.quoteMint, false, false⟩,
   ⟨.userBaseTokenAccount, false, true⟩,
   ⟨.userQuoteTokenAccount, false, true⟩,
   ⟨.poolBaseTokenAccount, false, true⟩,
   ⟨.poolQuoteTokenAccount, false, true⟩,
   ⟨.protocolFeeRecipient, false, false⟩,
   ⟨.protocolFeeRecipientTokenAccount, false, true⟩,
   ⟨.tokenProgram, false, false⟩,
   ⟨.tokenProgram, false, false⟩,
   ⟨.systemProgram, false, false⟩,
   ⟨.associatedTokenProgram, false, false⟩,
   ⟨.eventAuthorityConst, false, false⟩,
   ⟨.pumpSwapProgram, false, false⟩]

/-- The documented account order of the bonding-curve buy (the builder's
own comment, pump_fun.py:76-77). -/
def doc_bonding_buy_order : List BCAccount :=
  [.globalState, .feeRecipient, .mint, .bondingCurve, .associatedBondingCurve,
   .associatedUser, .user, .systemProgram, .tokenProgram, .creatorVault,
   .eventAuthority, .pumpFunProgram]

/-- The documented account order of the bonding-curve sell
(pump_fun.py:93-94): SYSTEM_PROGRAM then CREATOR_VAULT then
TOKEN_PROGRAM. -/
def doc_bonding_sell_order : List BCAccount :=
  [.globalState, .feeRecipient, .mint, .bondingCurve, .associatedBondingCurve,
   .associatedUser, .user, .systemProgram, .creatorVault, .tokenProgram,
   .eventAuthority, .pumpFunProgram]

/-- The documented 17-account order of the legacy AMM buy and sell
(docstrings of `_build_old_pumpswap_buy` / `_build_old_pumpswap_sell`). -/
def doc_old_amm_order : List AMMAccount :=
  [.pool, .user, .globalConfig, .baseMint, .quoteMint,
   .userBaseTokenAccount, .userQuoteTokenAccount,
   .poolBaseTokenAccount, .poolQuoteTokenAccount,
   .protocolFeeRecipient, .protocolFeeRecipientTokenAccount,
   .tokenProgram, .tokenProgram, .systemProgram, .associatedTokenProgram,
   .eventAuthorityConst, .pumpSwapProgram]

/-- The documented 21-account order of the current-schema AMM buy
(docstring of `_build_new_pumpswap_buy`). -/
def doc_new_amm_buy_order : List AMMAccount :=
  [.pool, .user, .globalConfig, .baseMint, .quoteMint,
   .userBaseTokenAccount, .userQuoteTokenAccount,
   .poolBaseTokenAccount, .poolQuoteTokenAccount,
   .protocolFeeRecipient, .protocolFeeRecipientTokenAccount,
   .tokenProgram, .tokenProgram, .systemProgram, .associatedTokenProgram,
   .eventAuthorityDerived, .pumpSwapProgram,
   .coinCreatorVaultAta, .coinCreatorVaultAuthority,
   .globalVolumeAccumulator, .userVolumeAccumulator]

/-- The documented 19-account order of the current-schema AMM sell
(docstring of `_build_new_pumpswap_sell`): no volume accumulators. -/
def doc_new_amm_sell_order : List AMMAccount :=
  [.pool, .user, .globalConfig, .baseMint, .quoteMint,
   .userBaseTokenAccount, .userQuoteTokenAccount,
   .poolBaseTokenAccount, .poolQuoteTokenAccount,
   .protocolFeeRecipient, .protocolFeeRecipientTokenAccount,
   .tokenProgram, .tokenProgram, .systemProgram, .associatedTokenProgram,
   .eventAuthorityDerived, .pumpSwapProgram,
   .coinCreatorVaultAta, .coinCreatorVaultAuthority]

/-- C7: every swap payload is the 8-byte discriminator followed by
exactly two little-endian unsigned 64-bit fields (24 bytes total), and
the account lists have exactly 12 accounts for bonding-curve buy and
sell, 17 for legacy AMM buy and sell, 21 for current-schema AMM buy and
19 for current-schema AMM sell, each in the documented order. -/
theorem instruction_layout (primary bound : ℕ) (discrim : List ℕ)
    (hp : primary < 2 ^ 64) (hb : bound < 2 ^ 64) (hd : discrim.length = 8) :
    swap_instruction_data discrim primary bound =
        some (discrim ++ leBytes 8 primary ++ leBytes 8 bound)
      ∧ (∀ d, swap_instruction_data discrim primary bound = some d → d.length = 24)
      ∧ leDecode (leBytes 8 primary) = primary
      ∧ leDecode (leBytes 8 bound) = bound
      ∧ (leBytes 8 primary).length = 8
      ∧ BONDING_BUY_DISCRIM.length = 8
      ∧ BONDING_SELL_DISCRIM.length = 8
      ∧ (create_swap_instruction_keys true).length = 12
      ∧ (create_swap_instruction_keys false).length = 12
      ∧ build_old_pumpswap_buy_accounts.length = 17
      ∧ build_old_pumpswap_sell_accounts.length = 17
      ∧ build_new_pumpswap_buy_accounts.length = 21
      ∧ build_new_pumpswap_sell_accounts.length = 19
      ∧ (create_swap_instruction_keys true).map AccountMeta.pubkey = doc_bonding_buy_order
      ∧ (create_swap_instruction_keys false).map AccountMeta.pubkey = doc_bonding_sell_order
      ∧ build_old_pumpswap_buy_accounts.map AccountMeta.pubkey = doc_old_amm_order
      ∧ build_old_pumpswap_sell_accounts.map AccountMeta.pubkey = doc_old_amm_order
      ∧ build_new_pumpswap_buy_accounts.map AccountMeta.pubkey = doc_new_amm_buy_order
      ∧ build_new_pumpswap_sell_accounts.map AccountMeta.pubkey = doc_new_amm_sell_order := by
  have h256 : (256 : ℕ) ^ 8 = 2 ^ 64 := by norm_num
  have hp2 : primary < 18446744073709551616 := by simpa using hp
  have hb2 : bound < 18446744073709551616 := by simpa using hb
  have hdata : swap_instruction_data discrim primary bound =
      some (discrim ++ leBytes 8 primary ++ leBytes 8 bound) := by
    simp [swap_instruction_data, pack_u64, hp2, hb2]
  refine ⟨hdata, ?_, leDecode_leBytes 8 primary (h256 ▸ hp),
    leDecode_leBytes 8 bound (h256 ▸ hb), leBytes_length 8 primary,
    rfl, rfl, rfl, rfl, rfl, rfl, rfl, rfl, rfl, rfl, rfl, rfl, rfl, rfl⟩
  intro d hsome
  rw [hdata] at hsome
  obtain rfl := Option.some.inj hsome
  simp [leBytes_length, hd]

/-- C7 witness instance with the bonding-curve buy discriminator and
amounts 1000000000 and 11500000. -/
theorem instruction_layout_witness :
    1000000000 < 2 ^ 64 ∧ 11500000 < 2 ^ 64 ∧ BONDING_BUY_DISCRIM.length = 8
      ∧ swap_instruction_data BONDING_BUY_DISCRIM 1000000000 11500000 =
          some (BONDING_BUY_DISCRIM ++ leBytes 8 1000000000 ++ leBytes 8 11500000) :=
  ⟨by norm_num, by norm_num, rfl,
    (instruction_layout 1000000000 11500000 BONDING_BUY_DISCRIM
      (by norm_num) (by norm_num) rfl).1⟩

/-! ## Pool state codec and discovery scan
(src/utils/pool_utils.py:75-157 and 236-314) -/

/-- Consumes `n` bytes from the stream, as a `construct` `Bytes(n)`
subfield: fails only when fewer than `n` bytes remain. -/
def readBytesN (n : ℕ) (l : List ℕ) : Option (List ℕ × List ℕ) :=
  if n ≤ l.length then some (l.take n, l.drop n) else none

/-- Consumes one byte (`construct` `Byte`). -/
def readU8 : List ℕ → Option (ℕ × List ℕ)
  | [] => none
  | x :: r => some (x, r)

/-- Consumes a little-endian 16-bit field (`construct` `Int16ul`). -/
def readU16le : List ℕ → Option (ℕ × List ℕ)
  | a :: b :: r => some (a + 256 * b, r)
  | _ => none

/-- Consumes a little-endian 64-bit field (`construct` `Int64ul`). -/
def readU64le (l : List ℕ) : Option (ℕ × List ℕ) :=
  match readBytesN 8 l with
  | some (b, r) => some (leDecode b, r)
  | none => none

/-- The current-schema pool account layout `PumpSwapPoolStateNew`
(src/utils/pool_utils.py:75-86); 32-byte pubkey fields are kept as raw
bytes (Python renders them base58, an injective encoding). -/
structure PoolStateNew where
  pool_bump : ℕ
  index : ℕ
  creator : List ℕ
  base_mint : List ℕ
  quote_mint : List ℕ
  lp_mint : List ℕ
  pool_base_token_account : List ℕ
  pool_quote_token_account : List ℕ
  lp_supply : ℕ
  coin_creator : List ℕ
  deriving DecidableEq, Repr

/-- The legacy pool account layout `PumpSwapPoolStateOld`
(src/utils/pool_utils.py:87-97): a strict prefix of the current layout,
without `coin_creator`. -/
structure PoolStateOld where
  pool_bump : ℕ
  index : ℕ
  creator : List ℕ
  base_mint : List ℕ
  quote_mint : List ℕ
  lp_mint : List ℕ
  pool_base_token_account : List ℕ
  pool_quote_token_account : List ℕ
  lp_supply : ℕ
  deriving DecidableEq, Repr

/-- Field-by-field parse of the current layout; `construct`'s `parse`
reads a prefix of the stream and tolerates trailing bytes, failing only
when a field runs past the end. -/
def parse_pool_state_new (l : List ℕ) : Option PoolStateNew := do
  let (pool_bump, l) ← readU8 l
  let (ix, l) ← readU16le l
  let (creator, l) ← readBytesN 32 l
  let (base_mint, l) ← readBytesN 32 l
  let (quote_mint, l) ← readBytesN 32 l
  let (lp_mint, l) ← readBytesN 32 l
  let (pbta, l) ← readBytesN 32 l
  let (pqta, l) ← readBytesN 32 l
  let (lp_supply, l) ← readU64le l
  let (coin_creator, _) ← readBytesN 32 l
  pure ⟨pool_bump, ix, creator, base_mint, quote_mint, lp_mint, pbta, pqta,
    lp_supply, coin_creator⟩

/-- Field-by-field parse of the legacy layout. -/
def parse_pool_state_old (l : List ℕ) : Option PoolStateOld := do
  let (pool_bump, l) ← readU8 l
  let (ix, l) ← readU16le l
  let (creator, l) ← readBytesN 32 l
  let (base_mint, l) ← readBytesN 32 l
  let (quote_mint, l) ← readBytesN 32 l
  let (lp_mint, l) ← readBytesN 32 l
  let (pbta, l) ← readBytesN 32 l
  let (pqta, l) ← readBytesN 32 l
  let (lp_supply, _) ← readU64le l
  pure ⟨pool_bump, ix, creator, base_mint, quote_mint, lp_mint, pbta, pqta,
    lp_supply⟩

/-- The dictionary `convert_pool_keys` builds
(src/utils/pool_utils.py:99-121): `coin_creator` is present only for the
current schema. -/
structure PoolKeys where
  pool_bump : ℕ
  index : ℕ
  creator : List ℕ
  base_mint : List ℕ
  quote_mint : List ℕ
  lp_mint : List ℕ
  pool_base_token_account : List ℕ
  pool_quote_token_account : List ℕ
  lp_supply : ℕ
  coin_creator : Option (List ℕ)
  deriving DecidableEq, Repr

def convert_pool_keys_new (c : PoolStateNew) : PoolKeys :=
  ⟨c.pool_bump, c.index, c.creator, c.base_mint, c.quote_mint, c.lp_mint,
    c.pool_base_token_account, c.pool_quote_token_account, c.lp_supply,
    some c.coin_creator⟩

def convert_pool_keys_old (c : PoolStateOld) : PoolKeys :=
  ⟨c.pool_bump, c.index, c.creator, c.base_mint, c.quote_mint, c.lp_mint,
    c.pool_base_token_account, c.pool_quote_token_account, c.lp_supply, none⟩

/-- The schema-fallback decode shared by `fetch_pool_state`
(src/utils/pool_utils.py:145-157) and the scan loop of
`find_pools_by_mint` (lines 271-289): strip the 8-byte account tag, try
the current layout, fall back to the legacy layout, report `none` when
both parses fail. -/
def fetch_pool_state_decode (raw_data : List ℕ) : Option (PoolKeys × String) :=
  match parse_pool_state_new (raw_data.drop 8) with
  | some parsed => some (convert_pool_keys_new parsed, NEW_POOL_TYPE)
  | none =>
      match parse_pool_state_old (raw_data.drop 8) with
      | some parsed => some (convert_pool_keys_old parsed, OLD_POOL_TYPE)
      | none => none

/-- A surviving candidate of `find_pools_by_mint`. -/
structure PoolAccountCandidate where
  pool_address : ℕ
  pool_keys : PoolKeys
  pool_type : String
  account_data : List ℕ
  deriving DecidableEq, Repr

/-- Embeds the scan loop of `find_pools_by_mint`
(src/utils/pool_utils.py:236-314) over the account blobs the server-side
memcmp filter returned (which may contain false positives): each blob is
decoded with the schema fallback, a blob failing both parses is skipped,
and a decoded candidate is kept only if its base-mint equals the
searched mint. -/
def find_pools_by_mint (mint : List ℕ) (accounts : List (ℕ × List ℕ)) :
    Bool × List PoolAccountCandidate :=
  let pool_candidates := accounts.filterMap fun acct =>
    match fetch_pool_state_decode acct.2 with
    | none => none
    | some (keys, ptype) =>
        if keys.base_mint ≠ mint then none
        else some ⟨acct.1, keys, ptype, acct.2⟩
  (decide (0 < pool_candidates.length), pool_candidates)

/-- C9: pool-account decoding tries the current (larger) schema first
and falls back to the legacy schema on parse failure; a blob failing
both parses is skipped without aborting the scan; and every candidate
`find_pools_by_mint` returns has its decoded base-mint equal to the
searched mint, re-verified after decode regardless of what the
server-side byte filter admitted. -/
theorem pool_discovery_codec
    (mint : List ℕ) (accounts : List (ℕ × List ℕ)) (addr : ℕ)
    (d1 d2 d3 : List ℕ) (pnew : PoolStateNew) (pold : PoolStateOld)
    (h1 : parse_pool_state_new (d1.drop 8) = some pnew)
    (h2n : parse_pool_state_new (d2.drop 8) = none)
    (h2o : parse_pool_state_old (d2.drop 8) = some pold)
    (h3 : fetch_pool_state_decode d3 = none) :
    (∀ c ∈ (find_pools_by_mint mint accounts).2, c.pool_keys.base_mint = mint)
      ∧ fetch_pool_state_decode d1 = some (convert_pool_keys_new pnew, NEW_POOL_TYPE)
      ∧ fetch_pool_state_decode d2 = some (convert_pool_keys_old pold, OLD_POOL_TYPE)
      ∧ find_pools_by_mint mint ((addr, d3) :: accounts) =
          find_pools_by_mint mint accounts := by
  refine ⟨?_, ?_, ?_, ?_⟩
  · intro c hc
    simp only [find_pools_by_mint, List.mem_filterMap] at hc
    obtain ⟨a, _, hf⟩ := hc
    cases hdec : fetch_pool_state_decode a.2 with
    | none => rw [hdec] at hf; simp at hf
    | some kp =>
        rw [hdec] at hf
        obtain ⟨keys, ptype⟩ := kp
        by_cases hmint : keys.base_mint ≠ mint
        · simp [hmint] at hf
        · simp only [hmint, if_false] at hf
          obtain rfl := Option.some.inj hf
          simpa using not_not.mp hmint
  · simp [fetch_pool_state_decode, h1]
  · simp [fetch_pool_state_decode, h2n, h2o]
  · simp [find_pools_by_mint, List.filterMap_cons, h3]

/-- The all-zero current-schema pool record, as decoded from a 243-byte
zero blob (8-byte tag plus the 235-byte current layout). -/
def zero_pool_new : PoolStateNew :=
  ⟨0, 0, List.replicate 32 0, List.replicate 32 0, List.replicate 32 0,
    List.replicate 32 0, List.replicate 32 0, List.replicate 32 0, 0,
    List.replicate 32 0⟩

/-- The all-zero legacy pool record, as decoded from a 211-byte zero
blob (8-byte tag plus the 203-byte legacy layout). -/
def zero_pool_old : PoolStateOld :=
  ⟨0, 0, List.replicate 32 0, List.replicate 32 0, List.replicate 32 0,
    List.replicate 32 0, List.replicate 32 0, List.replicate 32 0, 0⟩

/-- C9 witness instance: a 243-byte blob parses as current schema, a
211-byte blob fails the current parse and decodes as legacy, and a
3-byte blob fails both and is skipped by the scan. -/
theorem pool_discovery_codec_witness :
    parse_pool_state_new ((List.replicate 243 0).drop 8) = some zero_pool_new
      ∧ parse_pool_state_new ((List.replicate 211 0).drop 8) = none
      ∧ parse_pool_state_old ((List.replicate 211 0).drop 8) = some zero_pool_old
      ∧ fetch_pool_state_decode [1, 2, 3] = none
      ∧ fetch_pool_state_decode (List.replicate 243 0) =
          some (convert_pool_keys_new zero_pool_new, NEW_POOL_TYPE)
      ∧ fetch_pool_state_decode (List.replicate 211 0) =
          some (convert_pool_keys_old zero_pool_old, OLD_POOL_TYPE)
      ∧ find_pools_by_mint (List.replicate 32 0) [(7, [1, 2, 3])] =
          find_pools_by_mint (List.replicate 32 0) [] := by
  set_option maxRecDepth 4000 in
  have h := pool_discovery_codec (List.replicate 32 0) [] 7
    (List.replicate 243 0) (List.replicate 211 0) [1, 2, 3]
    zero_pool_new zero_pool_old rfl rfl rfl rfl
  exact ⟨rfl, rfl, rfl, rfl, h.2.1, h.2.2.1, h.2.2.2⟩

end PumpFunRepo
